import Mathlib

/-!
Shallow embedding of the data pipeline of `CS230_final.py` (NY Housing
Explorer): loading and cleaning (`load_data`), the price/borough filter,
summary statistics (`compute_price_stats`), and the property-type
breakdown feeding the pie chart.

Modelling conventions:
  * a pandas cell that may be NaN/missing is an `Option`; numeric cells
    are rationals (`ℚ`);
  * a DataFrame is a list of rows; column *presence* (a table-level
    notion in pandas) is a flag on the raw table;
  * an undefined numeric result (division by missing or zero sqft) is
    `none`;
  * an uncaught Python exception is an explicit outcome constructor.
-/

set_option autoImplicit false

namespace CS230

/-- One row of the raw CSV after `df.rename(columns=str.lower)`:
the columns the pipeline reads. `propertysqft` may hold NaN per row;
whether the column exists at all is recorded on `RawTable`. -/
structure RawRow where
  price : Option ℚ
  latitude : Option ℚ
  longitude : Option ℚ
  sublocality : Option String
  propertysqft : Option ℚ
  type : String
  deriving DecidableEq

/-- The raw DataFrame: its rows plus whether the `propertysqft` column
exists (line 36 of the source guards on `'propertysqft' in df.columns`). -/
structure RawTable where
  hasPropertysqft : Bool
  rows : List RawRow
  deriving DecidableEq

/-- One row after `load_data`'s derivation steps (borough, sqft,
price_per_sqft added). -/
structure Row where
  price : Option ℚ
  latitude : Option ℚ
  longitude : Option ℚ
  sublocality : Option String
  borough : Option String
  sqft : Option ℚ
  price_per_sqft : Option ℚ
  type : String
  deriving DecidableEq

/-- The five alternatives of the regex
`r"(Manhattan|Brooklyn|Queens|The Bronx|Staten Island)"` on line 34,
in their alternation order. -/
def boroughPatterns : List String :=
  ["Manhattan", "Brooklyn", "Queens", "The Bronx", "Staten Island"]

/-- Whether pattern `p` matches at the start of the character list `s`. -/
def matchesAt (p : String) (s : List Char) : Bool :=
  p.toList.isPrefixOf s

/-- Python `re` search semantics for a pure-literal alternation: scan
positions left to right; at each position try the alternatives in
pattern order; return the first alternative that matches. -/
def extractAux : List Char → Option String
  | [] => none
  | c :: rest =>
    match boroughPatterns.find? (fun p => matchesAt p (c :: rest)) with
    | some p => some p
    | none => extractAux rest

/-- `df['sublocality'].str.extract(r"(Manhattan|Brooklyn|Queens|The Bronx|Staten Island)")`
applied to one non-null cell: the captured group, or `none` when nothing
matches. -/
def extractBorough (s : String) : Option String :=
  extractAux s.toList

/-- Element-wise division as on line 39 (`df['price'] / df['sqft']`):
any operand NaN gives NaN, and division by zero gives a non-finite
value (inf/NaN); both undefined outcomes are `none`. -/
def divOpt (p s : Option ℚ) : Option ℚ :=
  match p, s with
  | some a, some b => if b = 0 then none else some (a / b)
  | _, _ => none

/-- Per-row derivation inside `load_data` (lines 34-39), for a table
whose `propertysqft` column exists: borough extracted from sublocality,
`sqft` copied from `propertysqft`, `price_per_sqft = price / sqft`. -/
def deriveRow (r : RawRow) : Row :=
  { price := r.price
    latitude := r.latitude
    longitude := r.longitude
    sublocality := r.sublocality
    borough := r.sublocality.bind extractBorough
    sqft := r.propertysqft
    price_per_sqft := divOpt r.price r.propertysqft
    type := r.type }

/-- Row admission of line 41:
`df.dropna(subset=['price', 'latitude', 'longitude', 'borough'])`. -/
def admitted (r : Row) : Bool :=
  r.price.isSome && r.latitude.isSome && r.longitude.isSome && r.borough.isSome

/-- Derivation plus row admission (lines 32-41) on the row list. -/
def cleanRows (rows : List RawRow) : List Row :=
  (rows.map deriveRow).filter admitted

/-- Outcome of a call to `load_data`:
  * `notFound` — `FileNotFoundError` was caught, `st.error` shown, an
    empty DataFrame returned (lines 27-29);
  * `keyError` — the `propertysqft` column is absent, so line 37 never
    created `df['sqft']` and line 39 raises an uncaught `KeyError`,
    aborting the script;
  * `ok rows` — the cleaned table. -/
inductive LoadOutcome where
  | notFound
  | keyError
  | ok (rows : List Row)
  deriving DecidableEq

/-- `load_data` (lines 19-42). The file system is modelled as
`Option RawTable`: `none` means the path does not resolve. -/
def load_data (file : Option RawTable) : LoadOutcome :=
  match file with
  | none => LoadOutcome.notFound
  | some t =>
    if t.hasPropertysqft then LoadOutcome.ok (cleanRows t.rows)
    else LoadOutcome.keyError

/-- The table the rest of the script sees in `data` (line 53): the
cleaned rows on success, the empty DataFrame on the reported
not-found error (a raised `keyError` never returns a table at all). -/
def resultTable : LoadOutcome → List Row
  | LoadOutcome.ok rows => rows
  | _ => []

/-- Whether `load_data` reported an error to the user via `st.error`
(line 28). -/
def errorReported (file : Option RawTable) : Bool :=
  match load_data file with
  | LoadOutcome.notFound => true
  | _ => false

/-- Whether the stages after loading (filter, aggregation, rendering)
run: line 54-55 is `if data.empty: st.stop()`, and an uncaught
exception also stops the script. -/
def pipelineProceeds (file : Option RawTable) : Bool :=
  match load_data file with
  | LoadOutcome.ok rows => !rows.isEmpty
  | _ => false

/-- The price predicate of line 65, `data['price'] <= price_threshold`:
a NaN price compares as False. -/
def pricePasses (maxPrice : ℚ) (r : Row) : Bool :=
  match r.price with
  | some p => decide (p ≤ maxPrice)
  | none => false

/-- The filter of lines 65-68: first `price <= price_threshold`, then,
only when the selection is not `"All"`, `borough == selected_borough`. -/
def filterData (rows : List Row) (maxPrice : ℚ) (selectedBorough : String) : List Row :=
  let byPrice := rows.filter (pricePasses maxPrice)
  if selectedBorough = "All" then byPrice
  else byPrice.filter (fun r => decide (r.borough = some selectedBorough))

/-- The conjunction of the two filter predicates, as a single row test. -/
def keepRow (maxPrice : ℚ) (selectedBorough : String) (r : Row) : Bool :=
  pricePasses maxPrice r &&
    (decide (selectedBorough = "All") || decide (r.borough = some selectedBorough))

/-- The non-null prices of a row list: pandas `mean`/`median` skip NaN. -/
def priceList (rows : List Row) : List ℚ :=
  rows.filterMap (fun r => r.price)

/-- Pandas `Series.mean`: NaN (here `none`) on an empty series. -/
def mean (l : List ℚ) : Option ℚ :=
  if l.isEmpty then none else some (l.sum / (l.length : ℚ))

/-- Pandas `Series.median`: sort, take the middle element (odd length)
or the average of the two middle elements (even length); NaN on empty. -/
def median (l : List ℚ) : Option ℚ :=
  let s := l.insertionSort (· ≤ ·)
  let n := s.length
  if n = 0 then none
  else if n % 2 = 1 then s[n / 2]?
  else
    match s[n / 2 - 1]?, s[n / 2]? with
    | some a, some b => some ((a + b) / 2)
    | _, _ => none

/-- `compute_price_stats` (lines 45-50): mean and median price overall
or for one borough. -/
def compute_price_stats (rows : List Row) (borough : String) : Option ℚ × Option ℚ :=
  let subset :=
    if borough = "All" then rows
    else rows.filter (fun r => decide (r.borough = some borough))
  (mean (priceList subset), median (priceList subset))

/-- The distinct strings of a list (relative order immaterial here: the
pie-chart phase only uses the resulting category-to-count mapping). -/
def keysOf : List String → List String
  | [] => []
  | t :: rest =>
    let k := keysOf rest
    if t ∈ k then k else t :: k

/-- The `type` column of a row list. -/
def typeList (rows : List Row) : List String :=
  rows.map (fun r => r.type)

/-- `filtered['type'].value_counts()` (line 111) as an association list
from category to its count. -/
def typeCounts (rows : List Row) : List (String × Nat) :=
  (keysOf (typeList rows)).map (fun t => (t, (typeList rows).count t))

/-- Sum of the counts of an association list; `type_counts.sum()`. -/
def sumVals (l : List (String × Nat)) : Nat :=
  (l.map (fun p => p.2)).sum

/-- The test `type_counts / total >= 0.05` of line 113 on one count. -/
def shareAtLeast (total cnt : Nat) : Bool :=
  decide ((5 : ℚ) / 100 ≤ (cnt : ℚ) / (total : ℚ))

/-- The test `type_counts / total < 0.05` of line 114 on one count. -/
def shareBelow (total cnt : Nat) : Bool :=
  decide ((cnt : ℚ) / (total : ℚ) < (5 : ℚ) / 100)

/-- `main = type_counts[type_counts / total >= 0.05]` (line 113). -/
def mainCategories (rows : List Row) : List (String × Nat) :=
  let tc := typeCounts rows
  let total := sumVals tc
  tc.filter (fun p => shareAtLeast total p.2)

/-- `other_count = type_counts[type_counts / total < 0.05].sum()`
(line 114). -/
def otherCount (rows : List Row) : Nat :=
  let tc := typeCounts rows
  let total := sumVals tc
  sumVals (tc.filter (fun p => shareBelow total p.2))

/-- `main['Other'] = other_count` (line 115): overwrite the value under
the key `"Other"` when the key exists, otherwise append the pair. -/
def setOther (l : List (String × Nat)) (v : Nat) : List (String × Nat) :=
  if l.any (fun p => decide (p.1 = "Other")) then
    l.map (fun p => if p.1 = "Other" then ("Other", v) else p)
  else l ++ [("Other", v)]

/-- The category breakdown of lines 111-115 feeding the pie chart. -/
def categoryBreakdown (rows : List Row) : List (String × Nat) :=
  setOther (mainCategories rows) (otherCount rows)

/-- A raw row with every key field present; its sublocality is the
spec's example `"Staten Island, NY"`. -/
def goodRaw : RawRow :=
  { price := some 250000
    latitude := some 40
    longitude := some (-74)
    sublocality := some "Staten Island, NY"
    propertysqft := some 900
    type := "Condo" }

/-- A raw row whose sublocality contains none of the five borough
names; the spec's example `"Unknown Place"`. -/
def unknownPlaceRaw : RawRow :=
  { price := some 100
    latitude := some 1
    longitude := some 2
    sublocality := some "Unknown Place"
    propertysqft := some 50
    type := "Condo" }

/-- First row of the spec's filter example: price 100, borough Queens. -/
def exRow1 : Row :=
  { price := some 100
    latitude := some 1
    longitude := some 2
    sublocality := some "Queens"
    borough := some "Queens"
    sqft := some 10
    price_per_sqft := some 10
    type := "Condo" }

/-- Second row of the spec's filter example: price 500, borough
Manhattan. -/
def exRow2 : Row :=
  { price := some 500
    latitude := some 3
    longitude := some 4
    sublocality := some "Manhattan, NY"
    borough := some "Manhattan"
    sqft := some 10
    price_per_sqft := some 50
    type := "Condo" }

/-- A cleaned row whose property type is literally `"Other"`. -/
def otherRow : Row :=
  { price := some 100
    latitude := some 1
    longitude := some 2
    sublocality := some "Queens"
    borough := some "Queens"
    sqft := some 10
    price_per_sqft := some 10
    type := "Other" }

/-- A cleaned row of property type `"Condo"`. -/
def condoRow : Row :=
  { price := some 100
    latitude := some 1
    longitude := some 2
    sublocality := some "Queens"
    borough := some "Queens"
    sqft := some 10
    price_per_sqft := some 10
    type := "Condo" }

/-- Twenty rows of type `"Other"` (share 20/21 ≥ 5%) and one `"Condo"`
row (share 1/21 < 5%). -/
def c4rows : List Row :=
  List.replicate 20 otherRow ++ [condoRow]

/-- A raw table whose `propertysqft` column is absent. -/
def noSqftTable : RawTable :=
  { hasPropertysqft := false
    rows := [goodRaw] }

end CS230

namespace CS230

/-! Helper lemmas shared by the claim theorems. -/

/-- Any borough the scan returns is one of the five pattern strings. -/
lemma mem_of_extractAux {s : List Char} {b : String}
    (h : extractAux s = some b) : b ∈ boroughPatterns := by
  induction s with
  | nil => simp [extractAux] at h
  | cons c rest ih =>
    rw [extractAux] at h
    split at h
    · next p hf =>
      cases h
      exact List.mem_of_find?_eq_some hf
    · exact ih h

/-- The price predicate holds exactly on a present price below the cap. -/
lemma pricePasses_iff (m : ℚ) (r : Row) :
    pricePasses m r = true ↔ ∃ p, r.price = some p ∧ p ≤ m := by
  unfold pricePasses
  cases r.price with
  | none => simp
  | some p => simp

/-- The two sequential filters of lines 65-68 equal one filter by the
conjoined predicate. -/
lemma filterData_eq_filter (rows : List Row) (m : ℚ) (b : String) :
    filterData rows m b = rows.filter (keepRow m b) := by
  by_cases hb : b = "All"
  · subst hb
    unfold filterData
    simp only [if_pos rfl]
    apply List.filter_congr
    intro r _
    simp [keepRow]
  · unfold filterData
    rw [if_neg hb, List.filter_filter]
    apply List.filter_congr
    intro r _
    simp [keepRow, hb, Bool.and_comm]

/-- Every row that survives cleaning has the four key fields present
and a borough drawn from the five pattern strings. -/
lemma cleanRows_complete (raws : List RawRow) (r : Row)
    (hr : r ∈ cleanRows raws) :
    r.price.isSome = true ∧ r.latitude.isSome = true ∧
    r.longitude.isSome = true ∧
    ∃ b, r.borough = some b ∧ b ∈ boroughPatterns := by
  unfold cleanRows at hr
  rcases List.mem_filter.mp hr with ⟨hmem, hadm⟩
  rcases List.mem_map.mp hmem with ⟨x, hx, rfl⟩
  unfold admitted at hadm
  simp only [Bool.and_eq_true] at hadm
  obtain ⟨⟨⟨hp, hla⟩, hlo⟩, hbo⟩ := hadm
  refine ⟨hp, hla, hlo, ?_⟩
  cases hsub : (deriveRow x).borough with
  | none => rw [hsub] at hbo; simp at hbo
  | some b =>
    refine ⟨b, rfl, ?_⟩
    have hbind : x.sublocality.bind extractBorough = some b := hsub
    cases hs : x.sublocality with
    | none => rw [hs] at hbind; simp at hbind
    | some s =>
      rw [hs] at hbind
      simp only [Option.some_bind] at hbind
      exact mem_of_extractAux hbind

/-- C1: Every row of the cleaned table produced by load_data has
non-null price, latitude, longitude, and borough, the borough being one
of the five strings Manhattan, Brooklyn, Queens, The Bronx,
Staten Island; and a row whose sublocality contains none of the five
names ("Unknown Place") is absent from the cleaned table. -/
theorem c1_cleaned_table_invariant :
    (∀ (t : RawTable) (rows : List Row),
        load_data (some t) = LoadOutcome.ok rows →
        ∀ r ∈ rows,
          r.price.isSome = true ∧ r.latitude.isSome = true ∧
          r.longitude.isSome = true ∧
          ∃ b, r.borough = some b ∧ b ∈ boroughPatterns) ∧
    cleanRows [unknownPlaceRaw] = [] := by
  constructor
  · intro t rows hld r hr
    have hld' : (if t.hasPropertysqft = true then LoadOutcome.ok (cleanRows t.rows)
        else LoadOutcome.keyError) = LoadOutcome.ok rows := hld
    by_cases hcol : t.hasPropertysqft = true
    · rw [if_pos hcol] at hld'
      cases hld'
      exact cleanRows_complete t.rows r hr
    · rw [if_neg hcol] at hld'
      cases hld' 
  · decide

/-- Witness for C1 at a concrete raw table. -/
theorem c1_witness : (deriveRow goodRaw).price.isSome = true := by
  have hadm : admitted (deriveRow goodRaw) = true := by decide
  have hmem : deriveRow goodRaw ∈ cleanRows [goodRaw] := by
    unfold cleanRows
    simp [List.filter, hadm]
  exact (c1_cleaned_table_invariant.1 ⟨true, [goodRaw]⟩ (cleanRows [goodRaw])
    rfl (deriveRow goodRaw) hmem).1

/-- C2: The filter keeps exactly the rows with price at most the cap
and, when the selection is not "All", borough equal to the selection
(the two predicates conjoined); on the spec example rows with cap 200
the result is exactly the first row. -/
theorem c2_filter_conjunction :
    (∀ (rows : List Row) (m : ℚ) (b : String),
        filterData rows m b = rows.filter (keepRow m b)) ∧
    filterData [exRow1, exRow2] 200 "All" = [exRow1] :=
  ⟨filterData_eq_filter, by decide⟩

/-- C3: The claim says the derivation never fails even when the
propertysqft column is absent; but then line 37 never creates the sqft
column and line 39 raises an uncaught KeyError. This theorem evaluates
the model at such a table. -/
theorem c3_missing_column_key_error :
    load_data (some noSqftTable) = LoadOutcome.keyError := rfl

/-- C6: Raising the price cap only enlarges the filtered row set. -/
theorem c6_filter_monotone (rows : List Row) (m₁ m₂ : ℚ) (b : String)
    (hm : m₁ ≤ m₂) (r : Row) (hr : r ∈ filterData rows m₁ b) :
    r ∈ filterData rows m₂ b := by
  rw [filterData_eq_filter] at hr ⊢
  rcases List.mem_filter.mp hr with ⟨hmem, hkeep⟩
  refine List.mem_filter.mpr ⟨hmem, ?_⟩
  simp only [keepRow, Bool.and_eq_true] at hkeep ⊢
  refine ⟨?_, hkeep.2⟩
  rcases (pricePasses_iff m₁ r).mp hkeep.1 with ⟨p, hp, hle⟩
  exact (pricePasses_iff m₂ r).mpr ⟨p, hp, le_trans hle hm⟩

/-- Witness for C6 at concrete caps 100 ≤ 150. -/
theorem c6_witness : exRow1 ∈ filterData [exRow1, exRow2] 150 "All" :=
  c6_filter_monotone [exRow1, exRow2] 100 150 "All" (by norm_num) exRow1
    (by decide)

/-- C7: On a path that does not resolve, load_data reports the
not-found condition and yields the empty table, and the later pipeline
stages do not run. -/
theorem c7_not_found_halts :
    load_data none = LoadOutcome.notFound ∧
    resultTable (load_data none) = [] ∧
    errorReported none = true ∧
    pipelineProceeds none = false :=
  ⟨rfl, rfl, rfl, rfl⟩

/-- C8: Mean and median price of the empty table are the undefined
value (none, the model of NaN); compute_price_stats is a total
function, so no exception is possible. -/
theorem c8_stats_empty_table (b : String) :
    compute_price_stats [] b = (none, none) := by
  unfold compute_price_stats
  by_cases hb : b = "All" <;> simp [hb, priceList, mean, median]

/-- Witness for C8 at a concrete borough. -/
theorem c8_witness : compute_price_stats [] "Brooklyn" = (none, none) :=
  c8_stats_empty_table "Brooklyn"

/-- No borough pattern matches at the end of the string. -/
lemma no_match_nil : ∀ p ∈ boroughPatterns, matchesAt p [] = false := by
  decide

/-- The scan of `extractAux` returns, at the leftmost position where
any pattern matches, the first matching pattern in alternation order. -/
lemma extractAux_leftmost (s : List Char) : ∀ (i : Nat),
    (∃ p ∈ boroughPatterns, matchesAt p (s.drop i) = true) →
    (∀ j, j < i → ∀ q ∈ boroughPatterns, matchesAt q (s.drop j) = false) →
    extractAux s = boroughPatterns.find? (fun q => matchesAt q (s.drop i)) := by
  induction s with
  | nil =>
    intro i hex _
    rcases hex with ⟨p, hp, hm⟩
    rw [List.drop_nil, no_match_nil p hp] at hm
    cases hm
  | cons c rest ih =>
    intro i hex hleft
    cases i with
    | zero =>
      simp only [List.drop_zero] at hex ⊢
      rw [extractAux]
      cases hf : boroughPatterns.find? (fun q => matchesAt q (c :: rest)) with
      | none =>
        rcases hex with ⟨p, hp, hm⟩
        rw [List.find?_eq_none] at hf
        exact absurd hm (by simpa using hf p hp)
      | some q => simp
    | succ n =>
      have h0 : ∀ q ∈ boroughPatterns, matchesAt q (c :: rest) = false := by
        intro q hq
        simpa using hleft 0 (Nat.succ_pos n) q hq
      have hf : boroughPatterns.find? (fun q => matchesAt q (c :: rest)) = none :=
        List.find?_eq_none.mpr (fun q hq => by simp [h0 q hq])
      rw [extractAux, hf]
      have hdrop : (c :: rest).drop (n + 1) = rest.drop n := rfl
      rw [hdrop] at hex ⊢
      exact ih n hex (fun j hj q hq => by
        simpa using hleft (j + 1) (Nat.succ_lt_succ hj) q hq)

/-- C9: On a sublocality containing at least one borough name, the
extraction returns the match at the leftmost matching position, and at
that position the alternation order Manhattan, Brooklyn, Queens,
The Bronx, Staten Island decides among patterns (find? in pattern
order). -/
theorem c9_leftmost_then_alternation_order (s : String) (i : Nat)
    (hex : ∃ p ∈ boroughPatterns, matchesAt p (s.toList.drop i) = true)
    (hleft : ∀ j, j < i → ∀ q ∈ boroughPatterns,
      matchesAt q (s.toList.drop j) = false) :
    extractBorough s =
      boroughPatterns.find? (fun q => matchesAt q (s.toList.drop i)) :=
  extractAux_leftmost s.toList i hex hleft

/-- Witness for C9: in "ab Brooklyn" the leftmost (and only) match
starts at index 3. -/
theorem c9_witness :
    extractBorough "ab Brooklyn" =
      boroughPatterns.find? (fun q => matchesAt q ("ab Brooklyn".toList.drop 3)) :=
  c9_leftmost_then_alternation_order "ab Brooklyn" 3
    ⟨"Brooklyn", by decide, by decide⟩ (by decide)

/-- Value sum of a cons cell. -/
lemma sumVals_cons (a : String × Nat) (l : List (String × Nat)) :
    sumVals (a :: l) = a.2 + sumVals l := by
  simp [sumVals]

/-- Value sum of an append. -/
lemma sumVals_append (l₁ l₂ : List (String × Nat)) :
    sumVals (l₁ ++ l₂) = sumVals l₁ + sumVals l₂ := by
  simp [sumVals]

/-- A filter and its complement partition the value sum. -/
lemma sumVals_filter_split (p : String × Nat → Bool) (l : List (String × Nat)) :
    sumVals (l.filter p) + sumVals (l.filter (fun x => !p x)) = sumVals l := by
  induction l with
  | nil => simp [sumVals]
  | cons a as ih =>
    cases h : p a <;>
      simp only [List.filter_cons, h, Bool.not_true, Bool.not_false, if_pos, if_neg,
        Bool.false_eq_true, Bool.true_eq_false, ite_true, ite_false, sumVals_cons] <;>
      omega

/-- The keys collected by `keysOf` are distinct. -/
lemma keysOf_nodup (l : List String) : (keysOf l).Nodup := by
  induction l with
  | nil => simp [keysOf]
  | cons t rest ih =>
    rw [keysOf]
    by_cases h : t ∈ keysOf rest
    · simpa [h] using ih
    · simpa [h] using List.nodup_cons.mpr ⟨h, ih⟩

/-- Every element of the list appears among its keys. -/
lemma mem_keysOf {l : List String} {x : String} (hx : x ∈ l) : x ∈ keysOf l := by
  induction l with
  | nil => cases hx
  | cons t rest ih =>
    rw [keysOf]
    rcases List.mem_cons.mp hx with rfl | hx'
    · by_cases h : x ∈ keysOf rest
      · simp [h]
      · simp [h]
    · by_cases h : t ∈ keysOf rest
      · simp [h, ih hx']
      · simp only [if_neg h, List.mem_cons]
        exact Or.inr (ih hx')

/-- Occurrences of `k` together with the elements differing from `k`
exhaust a list. -/
lemma count_add_filter_ne (k : String) (l : List String) :
    l.count k + (l.filter (fun x => !(x == k))).length = l.length := by
  induction l with
  | nil => simp
  | cons a as ih =>
    by_cases h : a = k
    · subst h
      simp only [List.count_cons_self, List.filter_cons, beq_self_eq_true,
        Bool.not_true, Bool.false_eq_true, ite_false, List.length_cons]
      omega
    · have hb : (a == k) = false := beq_eq_false_iff_ne.mpr h
      simp only [List.count_cons, hb, List.filter_cons, Bool.not_false,
        ite_true, List.length_cons, if_false, Bool.false_eq_true]
      omega

/-- Summing the per-key occurrence counts over a duplicate-free key list
covering a list gives the list's length. -/
lemma sum_counts : ∀ (keys l : List String), keys.Nodup →
    (∀ x ∈ l, x ∈ keys) →
    (keys.map (fun t => l.count t)).sum = l.length := by
  intro keys
  induction keys with
  | nil =>
    intro l _ hall
    cases l with
    | nil => simp
    | cons x xs => exact absurd (hall x (List.mem_cons_self x xs)) (by simp)
  | cons k ks ih =>
    intro l hnd hall
    have hknotin : k ∉ ks := (List.nodup_cons.mp hnd).1
    have hndks : ks.Nodup := (List.nodup_cons.mp hnd).2
    have hcongr : ∀ t ∈ ks, l.count t = (l.filter (fun x => !(x == k))).count t := by
      intro t ht
      have htk : ¬(t == k) = true := by
        simp only [beq_iff_eq]
        intro h
        exact hknotin (h ▸ ht)
      rw [List.count_filter]
      simpa using htk
    rw [List.map_cons, List.sum_cons, List.map_congr_left hcongr,
      ih (l.filter (fun x => !(x == k))) hndks ?_]
    · have := count_add_filter_ne k l
      omega
    · intro x hx
      rcases List.mem_filter.mp hx with ⟨hxl, hxk⟩
      rcases List.mem_cons.mp (hall x hxl) with rfl | h
      · simp at hxk
      · exact h

/-- `value_counts` counts sum to the row count. -/
lemma sumVals_typeCounts (rows : List Row) :
    sumVals (typeCounts rows) = rows.length := by
  unfold sumVals typeCounts
  rw [List.map_map]
  have hcomp : ((fun (p : String × Nat) => p.2) ∘
      fun t => (t, (typeList rows).count t)) =
      fun t => (typeList rows).count t := rfl
  rw [hcomp, sum_counts _ _ (keysOf_nodup _) (fun x hx => mem_keysOf hx)]
  simp [typeList]

/-- The strict-below test is the complement of the at-least test. -/
lemma shareBelow_eq_not_atLeast (total cnt : Nat) :
    shareBelow total cnt = !shareAtLeast total cnt := by
  unfold shareBelow shareAtLeast
  by_cases h : (5 : ℚ) / 100 ≤ (cnt : ℚ) / (total : ℚ)
  · simp [h, not_lt.2 h]
  · simp [h, lt_of_not_le h]

/-- Main-bucket counts plus the Other count give the row count. -/
lemma sumVals_main_add_other (rows : List Row) :
    sumVals (mainCategories rows) + otherCount rows = rows.length := by
  simp only [mainCategories, otherCount]
  have hb : (typeCounts rows).filter
        (fun p => shareBelow (sumVals (typeCounts rows)) p.2) =
      (typeCounts rows).filter
        (fun p => !shareAtLeast (sumVals (typeCounts rows)) p.2) :=
    List.filter_congr (fun x _ => by rw [shareBelow_eq_not_atLeast])
  rw [hb, sumVals_filter_split]
  exact sumVals_typeCounts rows

/-- When no main-bucket key is literally "Other", line 115 appends the
Other bucket instead of overwriting an entry. -/
lemma setOther_of_no_other {l : List (String × Nat)}
    (h : ∀ p ∈ l, p.1 ≠ "Other") (v : Nat) :
    setOther l v = l ++ [("Other", v)] := by
  unfold setOther
  have hany : (l.any (fun p => decide (p.1 = "Other"))) = false := by
    rw [List.any_eq_false]
    intro p hp
    simp [h p hp]
  simp [hany]

/-- Entries of `value_counts` carry the occurrence count of their key. -/
lemma typeCounts_val {rows : List Row} {q : String × Nat}
    (hq : q ∈ typeCounts rows) : q.2 = (typeList rows).count q.1 := by
  unfold typeCounts at hq
  rcases List.mem_map.mp hq with ⟨t, _, rfl⟩
  rfl

/-- C4 fails as stated: with twenty rows of type "Other" and one
"Condo" row, the genuine "Other" category (share 20/21 ≥ 5%) has its
count overwritten by the below-threshold sum 1, so the breakdown counts
sum to 1, not to the row count 21. -/
theorem c4_counterexample :
    sumVals (categoryBreakdown c4rows) = 1 ∧ c4rows.length = 21 := by
  have htc : typeCounts c4rows = [("Other", 20), ("Condo", 1)] := by decide
  have hsv : sumVals [(("Other" : String), (20 : Nat)), ("Condo", 1)] = 21 := by decide
  have h1 : shareAtLeast 21 20 = true := by unfold shareAtLeast; norm_num
  have h2 : shareAtLeast 21 1 = false := by unfold shareAtLeast; norm_num
  have h3 : shareBelow 21 20 = false := by unfold shareBelow; norm_num
  have h4 : shareBelow 21 1 = true := by unfold shareBelow; norm_num
  have hmain : mainCategories c4rows = [("Other", 20)] := by
    simp only [mainCategories, htc, hsv]
    simp [List.filter_cons, h1, h2]
  have hoth : otherCount c4rows = 1 := by
    simp only [otherCount, htc, hsv]
    simp only [List.filter_cons, h3, h4]
    decide
  have hbd : categoryBreakdown c4rows = [("Other", 1)] := by
    unfold categoryBreakdown
    rw [hmain, hoth]
    decide
  rw [hbd]
  exact ⟨by decide, by decide⟩

/-- C4 amended: provided no category literally named "Other" reaches
the 5% threshold (so line 115 appends rather than overwrites), every
main category maps to its own count and the breakdown's counts,
including the "Other" bucket, sum exactly to the row count. -/
theorem c4_amended_breakdown_sums (rows : List Row)
    (h : "Other" ∉ (mainCategories rows).map Prod.fst) :
    (∀ q ∈ mainCategories rows,
        q ∈ categoryBreakdown rows ∧ q.2 = (typeList rows).count q.1) ∧
    sumVals (categoryBreakdown rows) = rows.length := by
  have h' : ∀ q ∈ mainCategories rows, q.1 ≠ "Other" := by
    intro q hq hEq
    exact h (List.mem_map.mpr ⟨q, hq, hEq⟩)
  have hset : categoryBreakdown rows =
      mainCategories rows ++ [("Other", otherCount rows)] := by
    unfold categoryBreakdown
    exact setOther_of_no_other h' _
  constructor
  · intro q hq
    refine ⟨by rw [hset]; exact List.mem_append_left _ hq, ?_⟩
    have hq' : q ∈ typeCounts rows := by
      simp only [mainCategories] at hq
      exact List.mem_of_mem_filter hq
    exact typeCounts_val hq'
  · rw [hset, sumVals_append]
    have hsingle : sumVals [(("Other" : String), otherCount rows)] =
        otherCount rows := by
      simp [sumVals]
    rw [hsingle]
    exact sumVals_main_add_other rows

/-- Witness for the amended C4 on a one-row table of type "Condo". -/
theorem c4_witness :
    sumVals (categoryBreakdown [condoRow]) = [condoRow].length :=
  (c4_amended_breakdown_sums [condoRow] (by
    have h1 : shareAtLeast 1 1 = true := by unfold shareAtLeast; norm_num
    have htc : typeCounts [condoRow] = [("Condo", 1)] := by decide
    have hsv : sumVals [(("Condo" : String), (1 : Nat))] = 1 := by decide
    have hmain : mainCategories [condoRow] = [("Condo", 1)] := by
      simp only [mainCategories, htc, hsv]
      simp [List.filter_cons, h1]
    rw [hmain]
    decide)).2

/-- C10: The breakdown always contains the key "Other", and any entry
under that key carries exactly the below-threshold sum — in particular
a genuine main category named "Other" has its count overwritten. -/
theorem c10_other_bucket (rows : List Row) (_h : rows ≠ []) :
    ("Other", otherCount rows) ∈ categoryBreakdown rows ∧
    ∀ v : Nat, ("Other", v) ∈ categoryBreakdown rows → v = otherCount rows := by
  unfold categoryBreakdown setOther
  by_cases hc : (mainCategories rows).any (fun p => decide (p.1 = "Other")) = true
  · rw [if_pos hc]
    constructor
    · rcases List.any_eq_true.mp hc with ⟨p, hp, hdp⟩
      have hp1 : p.1 = "Other" := of_decide_eq_true hdp
      refine List.mem_map.mpr ⟨p, hp, ?_⟩
      rw [if_pos hp1]
    · intro v hv
      rcases List.mem_map.mp hv with ⟨q, hq, hEq⟩
      by_cases hq1 : q.1 = "Other"
      · rw [if_pos hq1] at hEq
        exact ((Prod.ext_iff.mp hEq).2).symm
      · rw [if_neg hq1] at hEq
        exact absurd (congrArg Prod.fst hEq) hq1
  · rw [if_neg hc]
    constructor
    · exact List.mem_append_right _ (List.mem_singleton_self _)
    · intro v hv
      rcases List.mem_append.mp hv with hin | hin
      · exfalso
        exact hc (List.any_eq_true.mpr ⟨("Other", v), hin, by simp⟩)
      · have hEq := List.mem_singleton.mp hin
        exact (Prod.ext_iff.mp hEq).2

/-- Witness for C10 on a one-row table whose single category is
literally "Other": its count 1 is overwritten by the empty
below-threshold sum 0. -/
theorem c10_witness :
    ("Other", otherCount [otherRow]) ∈ categoryBreakdown [otherRow] :=
  (c10_other_bucket [otherRow] (List.cons_ne_nil _ _)).1

end CS230
